import Mathlib

/-!
Verification of the varnarc_api ingestion pipeline.

This development is a shallow embedding of the repository's core:

* `src/services/schemaInference.ts` — identifier sanitization
  (`sanitizeSqlIdentifier`), type detection and nullability inference
  (`inferTableSchema`), and row encoding (`mapRowToSqlColumns`);
* `src/services/fileImporter.ts` — the `importDataToTable` import path
  (conflict policy, create-table, 500-row batch loop);
* the `upload_old` handler in the server entry file — the full ingestion
  pipeline with the zero-row guard, unsupported-format guard, and the
  widen-and-retry repair protocol for not-null constraint violations.

JavaScript strings are modelled as Lean `String`/`List Char`.  The ASCII
fragments of `toLowerCase`, `trim` and the regular expressions used by the
source are modelled exactly; the source's behaviour on exotic Unicode
whitespace/case pairs is outside every claim proved here.  Cell values
coming out of the (external) CSV/Excel parsers are modelled as absent
(`undefined`, i.e. no key in the row object), `null`, or a string.
The relational store is modelled as an oracle that answers the existence
check and decides the outcome of each batch-insert statement; every
statement the pipeline executes is recorded in an operation trace.
-/

/-- The closed set of SQL types used by `schemaInference.ts` (`SqlType`). -/
inductive SqlType
  | INT
  | BIGINT
  | DOUBLE
  | DECIMAL
  | BOOLEAN
  | DATE
  | DATETIME
  | VARCHAR
  | TEXT
  | LONGTEXT
  deriving DecidableEq

/-- One column of an inferred table schema (`ColumnSchema` in
`schemaInference.ts`).  The `length` field of the source is dead
(`delete col.length` removes it on every column), so it is not modelled. -/
structure ColumnSchema where
  name : String
  originalHeader : String
  type : SqlType
  nullable : Bool
  deriving DecidableEq

/-- `TableSchema` from `schemaInference.ts`: the ordered column list. -/
structure TableSchema where
  columns : List ColumnSchema
  deriving DecidableEq

/-- A raw cell as produced by the external parsers: JavaScript `null` or a
string.  An absent key (`undefined`) is modelled by the cell simply being
missing from the row, i.e. by `Option.none` at lookup time. -/
inductive Cell
  | nullv
  | str (s : String)
  deriving DecidableEq

/-- A parsed row: the JavaScript object keyed by original header, modelled
as an association list (JavaScript object keys are unique). -/
def Row : Type := List (String × Cell)

instance : DecidableEq Row := by
  unfold Row
  infer_instance

/-- `row[header]` — JavaScript property lookup; `none` models `undefined`. -/
def lookupCell (r : Row) (h : String) : Option Cell :=
  (List.find? (fun p => p.1 = h) r).map (fun p => p.2)

/-- `ParsedData` from `fileImporter.ts`: headers plus rows. -/
structure ParsedData where
  headers : List String
  rows : List Row
  deriving DecidableEq

/-! ## Character classes and the regular expressions of the source -/

/-- Characters allowed in identifiers by `/[^a-z0-9_]+/`: the complement of
this class is replaced by underscores. -/
def isIdentChar (c : Char) : Bool :=
  (('a' ≤ c && c ≤ 'z') || ('0' ≤ c && c ≤ '9') || c = '_')

/-- JavaScript `String.prototype.trim`, on the ASCII whitespace fragment. -/
def trimChars (cs : List Char) : List Char :=
  ((cs.dropWhile Char.isWhitespace).reverse.dropWhile Char.isWhitespace).reverse

/-- JavaScript `trim` on strings. -/
def jsTrim (s : String) : String :=
  String.mk (trimChars s.data)

/-- JavaScript `toLowerCase`, on the ASCII fragment (`Char.toLower` lowers
exactly the characters A–Z). -/
def jsLower (s : String) : String :=
  String.mk (s.data.map Char.toLower)

/-- `replace(/[^a-z0-9_]+/g, '_')`: every maximal run of characters outside
`[a-z0-9_]` becomes a single underscore.  The boolean argument records
whether the previous character was part of such a run. -/
def replaceRunsAux : Bool → List Char → List Char
  | _, [] => []
  | inRun, c :: rest =>
    if isIdentChar c then c :: replaceRunsAux false rest
    else if inRun then replaceRunsAux true rest
    else '_' :: replaceRunsAux true rest

/-- Entry point of the run replacement (no run in progress initially). -/
def replaceRuns (cs : List Char) : List Char :=
  replaceRunsAux false cs

/-- `replace(/^_+|_+$/g, '')`: strip leading and trailing underscores. -/
def stripEdgeUnderscores (cs : List Char) : List Char :=
  ((cs.dropWhile (fun c => c = '_')).reverse.dropWhile (fun c => c = '_')).reverse

/-- `replace(/__+/g, '_')`: collapse every run of two or more underscores to
one.  The boolean argument records whether the previous kept character was
an underscore. -/
def collapseUnderscoresAux : Bool → List Char → List Char
  | _, [] => []
  | prevU, c :: rest =>
    if c = '_' then
      if prevU then collapseUnderscoresAux true rest
      else '_' :: collapseUnderscoresAux true rest
    else c :: collapseUnderscoresAux false rest

/-- Entry point of the underscore collapse. -/
def collapseUnderscores (cs : List Char) : List Char :=
  collapseUnderscoresAux false cs

/-- `/^[0-9]/.test s` — does the string start with a digit? -/
def startsWithDigit (cs : List Char) : Bool :=
  match cs with
  | [] => false
  | c :: _ => c.isDigit

/-- `sanitizeSqlIdentifier` from `schemaInference.ts`:

1. trim, lower-case, replace runs of characters outside `[a-z0-9_]` by one
   underscore;
2. if the result is empty or starts with a digit, prefix it with `col_`;
3. strip leading/trailing underscores and collapse repeated underscores;
4. fall back to `col_unnamed` if the result is empty.

Note the source really performs step 2 before step 3. -/
def sanitizeSqlIdentifier (s : String) : String :=
  let s1 := replaceRuns ((trimChars s.data).map Char.toLower)
  let s2 := if s1 = [] || startsWithDigit s1 then ('c' :: 'o' :: 'l' :: '_' :: s1) else s1
  let s3 := collapseUnderscores (stripEdgeUnderscores s2)
  if s3 = [] then "col_unnamed" else String.mk s3

/-- The identifier shape the specification promises for sanitized output.
Modelled from the spec: the regular expression `^[a-z][a-z0-9_]*$`
(non-empty, lowercase letters/digits/underscore, not starting with a
digit).  This definition follows the spec's words, for comparison with
`sanitizeSqlIdentifier`; it does not come from the source. -/
def specIdentShape (s : String) : Bool :=
  match s.data with
  | [] => false
  | c :: rest => ('a' ≤ c && c ≤ 'z') && rest.all isIdentChar

/-! ## Identifier deduplication (`inferTableSchema`, dedup step) -/

/-- The `while (used.has(name)) name = name + '_' + suffix++` loop of
`inferTableSchema`.  Each failed probe appends `_<suffix>` to the
previously tried candidate (not to the original base name).  The loop is
given as fuel-indexed structural recursion; `freshNameFuelSufficient`
below shows that `used.card + 1` fuel always finds a fresh name. -/
def freshName : Nat → Finset String → String → Nat → String
  | 0, _, name, _ => name
  | fuel + 1, used, name, suffix =>
    if name ∈ used then
      freshName fuel used (name ++ "_" ++ toString suffix) (suffix + 1)
    else name

/-- Deduplicated sanitized column names for a header list, threading the
`used` set exactly as the source's `headers.map` with mutable `used`. -/
def dedupNames : List String → Finset String → List String
  | [], _ => []
  | h :: t, used =>
    let n := freshName (used.card + 1) used (sanitizeSqlIdentifier h) 1
    n :: dedupNames t (insert n used)

/-! ## Value classification predicates (`schemaInference.ts`) -/

/-- `/^[-+]?\d+$/` — optional sign followed by one or more digits. -/
def intShape : List Char → Bool
  | [] => false
  | c :: rest =>
    if c = '+' || c = '-' then !rest.isEmpty && rest.all Char.isDigit
    else (c :: rest).all Char.isDigit

/-- The optional `(\.\d+)?` tail of the float regular expression. -/
def fracTail : List Char → Bool
  | [] => true
  | '.' :: rest => !rest.isEmpty && rest.all Char.isDigit
  | _ => false

/-- Digits consumed greedily, then the optional fraction tail (`\d*(\.\d+)?`). -/
def mantissa : List Char → Bool
  | [] => true
  | c :: rest => if c.isDigit then mantissa rest else fracTail (c :: rest)

/-- `/^[-+]?\d*(?:\.\d+)?$/` — the float regular expression. -/
def floatShape : List Char → Bool
  | [] => true
  | c :: rest => if c = '+' || c = '-' then mantissa rest else mantissa (c :: rest)

/-- `/^\d{4}-\d{2}-\d{2}$/` — plain ISO date. -/
def dateShape : List Char → Bool
  | [y1, y2, y3, y4, s1, m1, m2, s2, d1, d2] =>
    y1.isDigit && y2.isDigit && y3.isDigit && y4.isDigit && s1 = '-' &&
      m1.isDigit && m2.isDigit && s2 = '-' && d1.isDigit && d2.isDigit
  | _ => false

/-- `/^\d{4}-\d{2}-\d{2}[ T]\d{2}:\d{2}:\d{2}(?:\.\d+)?$/` — ISO date-time. -/
def dateTimeShape : List Char → Bool
  | y1 :: y2 :: y3 :: y4 :: s1 :: m1 :: m2 :: s2 :: d1 :: d2 :: sep ::
      h1 :: h2 :: c1 :: n1 :: n2 :: c2 :: e1 :: e2 :: rest =>
    y1.isDigit && y2.isDigit && y3.isDigit && y4.isDigit && s1 = '-' &&
      m1.isDigit && m2.isDigit && s2 = '-' && d1.isDigit && d2.isDigit &&
      (sep = ' ' || sep = 'T') && h1.isDigit && h2.isDigit && c1 = ':' &&
      n1.isDigit && n2.isDigit && c2 = ':' && e1.isDigit && e2.isDigit &&
      fracTail rest
  | _ => false

/-- `isIntegerLike` from `schemaInference.ts`, on string cells: guard out
the empty string, then test the trimmed value against `/^[-+]?\d+$/`.
(The source additionally checks `Number.isInteger(Number(s))`, which holds
for every signed digit string inside double range; IEEE-754 overflow on
309+-digit literals is not modelled and no claim below depends on it.) -/
def isIntegerLike (s : String) : Bool :=
  if s = "" then false else intShape (trimChars s.data)

/-- `isFloatLike` from `schemaInference.ts`, on string cells: guard out the
empty string, test the float regular expression on the trimmed value, then
require a decimal point or failure of `isIntegerLike`. -/
def isFloatLike (s : String) : Bool :=
  if s = "" then false
  else
    floatShape (trimChars s.data) &&
      ((trimChars s.data).contains '.' || !isIntegerLike s)

/-- `isBooleanLike` from `schemaInference.ts`, on string cells: trimmed,
lower-cased membership in the eight boolean tokens.  (The `typeof value
=== 'boolean'` short-circuit concerns non-string cells, which the parsers
of this model do not produce.) -/
def isBooleanLike (s : String) : Bool :=
  let t := (trimChars s.data).map Char.toLower
  decide (t ∈ [ "true".data, "false".data, "yes".data, "no".data,
    "y".data, "n".data, "1".data, "0".data ])

/-- `isIsoDate` from `schemaInference.ts`: trimmed match of plain
`YYYY-MM-DD` (empty strings are guarded out). -/
def isIsoDate (s : String) : Bool :=
  if s = "" then false else dateShape (trimChars s.data)

/-- `isIsoDateTime` from `schemaInference.ts`: trimmed match of
`YYYY-MM-DD[ T]HH:MM:SS(.fraction)?` (empty strings are guarded out). -/
def isIsoDateTime (s : String) : Bool :=
  if s = "" then false else dateTimeShape (trimChars s.data)

/-! ## Type detection (`inferTableSchema`, classification cascade) -/

/-- The classification cascade of `inferTableSchema` (lines 113–131),
applied to the non-null, non-empty sampled string values of one column.
The integer branch of the source reads
`nonNull.some(isBigIntRange) ? 'BIGINT' : 'BIGINT'` — both arms are
`BIGINT`, so `isBigIntRange` is irrelevant and not modelled. -/
def detectType (nonNull : List String) : SqlType :=
  if nonNull.isEmpty then .LONGTEXT
  else if nonNull.all isBooleanLike then .BOOLEAN
  else if nonNull.all isIntegerLike then .BIGINT
  else if nonNull.all (fun v => isIntegerLike v || isFloatLike v) then .DOUBLE
  else if nonNull.all isIsoDateTime then .DATETIME
  else if nonNull.all (fun v => isIsoDateTime v || isIsoDate v) then .DATETIME
  else if nonNull.all isIsoDate then .DATE
  else .LONGTEXT

/-- JavaScript `v !== null && v !== ''` negated: the values the nullability
count treats as null-or-empty. -/
def isNullOrEmptyCell : Cell → Bool
  | .nullv => true
  | .str s => s = ""

/-- JavaScript `String(value)` for the cells of this model (only used on
non-null cells by the source; `String(null)` is the literal "null"). -/
def cellString : Cell → String
  | .nullv => "null"
  | .str s => s

/-- `sample.map(r => r[h]).filter(v => v !== undefined)` — the defined
(present) values of column `h` in the sample. -/
def columnValues (sample : List Row) (h : String) : List Cell :=
  sample.filterMap (fun r => lookupCell r h)

/-- The non-null, non-empty values of column `h` in the sample. -/
def columnNonNull (sample : List Row) (h : String) : List Cell :=
  (columnValues sample h).filter (fun c => !isNullOrEmptyCell c)

/-- `nonNull.length < values.length` — the inferred nullability flag. -/
def columnNullable (sample : List Row) (h : String) : Bool :=
  (columnNonNull sample h).length < (columnValues sample h).length

/-- `inferTableSchema` from `schemaInference.ts`: deduplicated sanitized
names, then per column the detected type and nullability computed from the
first 1000 rows.  The source first builds the columns with placeholder
type/nullability and then overwrites both fields in a second loop; the net
result is this single map over `names.zip headers`. -/
def inferTableSchema (headers : List String) (rows : List Row) : TableSchema :=
  let names := dedupNames headers ∅
  let sample := rows.take 1000
  ⟨(names.zip headers).map (fun nh =>
    ⟨nh.1, nh.2, detectType ((columnNonNull sample nh.2).map cellString),
      columnNullable sample nh.2⟩)⟩

/-! ## Row encoding (`mapRowToSqlColumns`) -/

/-- An SQL statement parameter as pushed by `mapRowToSqlColumns`:
JavaScript `null`, a number, or a string.  Numbers are carried as exact
rationals (integers for the `parseInt` branches); IEEE-754 rounding is not
modelled and no claim below depends on it. -/
inductive SqlValue
  | nullv
  | num (q : Rat)
  | strv (s : String)
  deriving DecidableEq

/-- `Number.parseInt(s, 10)`: skip leading whitespace, read an optional
sign and then the longest digit prefix; `none` models `NaN` (no digit). -/
def jsParseInt (s : String) : Option Int :=
  let cs := s.data.dropWhile Char.isWhitespace
  let read (ds : List Char) : Option Nat :=
    let digits := ds.takeWhile Char.isDigit
    if digits.isEmpty then none
    else some (digits.foldl (fun acc c => acc * 10 + (c.toNat - '0'.toNat)) 0)
  match cs with
  | '-' :: rest => (read rest).map (fun n => -(n : Int))
  | '+' :: rest => (read rest).map (fun n => (n : Int))
  | _ => (read cs).map (fun n => (n : Int))

/-- `Number(s)` for the strings accepted by the source's float regular
expression: an optional sign, digits, and an optional fraction, read as an
exact rational.  An empty or whitespace-only string is 0 (as in
JavaScript); anything else outside the shape is `none` (`NaN`).
Exponent/hex literal forms are not modelled: every string routed here by
`mapRowToSqlColumns` for a detected `DOUBLE` column passed the float
regular expression, and no claim below depends on this branch. -/
def jsNumber (s : String) : Option Rat :=
  let cs := trimChars s.data
  let readNum (ds : List Char) : Option Rat :=
    let whole := ds.takeWhile Char.isDigit
    let rest := ds.dropWhile Char.isDigit
    let wholeVal : Nat := whole.foldl (fun acc c => acc * 10 + (c.toNat - '0'.toNat)) 0
    match rest with
    | [] => if whole.isEmpty then none else some (wholeVal : Rat)
    | '.' :: frac =>
      if frac.all Char.isDigit && !(whole.isEmpty && frac.isEmpty) then
        some ((wholeVal : Rat) +
          (frac.foldl (fun acc c => acc * 10 + (c.toNat - '0'.toNat)) 0 : Rat) /
            ((10 : Rat) ^ frac.length))
      else none
    | _ => none
  match cs with
  | [] => some 0
  | '-' :: rest => (readNum rest).map (fun q => -q)
  | '+' :: rest => readNum rest
  | _ => readNum cs

/-- The truthy token set shared by the boolean branch of the encoder:
`['true', 'yes', 'y', '1']`. -/
def truthyTokens : List String :=
  ["true", "yes", "y", "1"]

/-- The per-column body of `mapRowToSqlColumns`: `raw == null || raw === ''`
pushes `null`; otherwise the switch on the declared column type. -/
def encodeCell (t : SqlType) (raw : Option Cell) : SqlValue :=
  match raw with
  | none => .nullv
  | some .nullv => .nullv
  | some (.str s) =>
    if s = "" then .nullv
    else
      match t with
      | .BOOLEAN =>
        if truthyTokens.contains (jsLower (jsTrim s)) then .num 1 else .num 0
      | .INT | .BIGINT =>
        match jsParseInt s with
        | some n => .num (n : Rat)
        | none => .nullv
      | .DOUBLE | .DECIMAL =>
        match jsNumber s with
        | some q => .num q
        | none => .nullv
      | .DATE | .DATETIME => .strv s
      | .TEXT | .LONGTEXT | .VARCHAR => .strv s

/-- `mapRowToSqlColumns` from `schemaInference.ts`: one positional
parameter per schema column, in schema order.  (The `headers` parameter is
unused by the source's body and kept for signature fidelity.) -/
def mapRowToSqlColumns (row : Row) (headers : List String)
    (schema : TableSchema) : List SqlValue :=
  let _ := headers
  schema.columns.map (fun col => encodeCell col.type (lookupCell row col.originalHeader))

/-! ## Batch partitioning (batch size 500) -/

/-- The batch loop index arithmetic
`for (let i = 0; i < rows.length; i += 500) rows.slice(i, i + 500)` as
fuel-indexed recursion (fuel `rows.length` suffices since every step
consumes at least one row). -/
def chunkRowsFuel : Nat → List Row → List (List Row)
  | 0, _ => []
  | _, [] => []
  | fuel + 1, x :: xs => ((x :: xs).take 500) :: chunkRowsFuel fuel ((x :: xs).drop 500)

/-- The 500-row batches of a row list, in order. -/
def chunkRows (rows : List Row) : List (List Row) :=
  chunkRowsFuel rows.length rows

/-- The batch sizes as a function of the row count alone (mirrors
`chunkRowsFuel` on lengths; used to state the 500/500/200 scenario). -/
def chunkSizesFuel : Nat → Nat → List Nat
  | 0, _ => []
  | _, 0 => []
  | fuel + 1, n + 1 => min 500 (n + 1) :: chunkSizesFuel fuel (n + 1 - 500)

/-! ## The store oracle and operation traces -/

/-- Terminal/intermediate states of a `files` registry record. -/
inductive FileStatus
  | pending
  | processing
  | processed
  | failed
  | empty
  | unsupported
  deriving DecidableEq

/-- Nullability policy passed to `generateCreateTableSql`. -/
inductive Nullability
  | allNullable
  | inferred
  deriving DecidableEq

/-- Outcome of one batch-insert statement as decided by the store: success,
a not-null constraint violation whose message names a column
(`Column 'x' cannot be null`), or any other error. -/
inductive InsertOutcome
  | ok
  | nnViolation (col : String)
  | otherError
  deriving DecidableEq

/-- The relational store, as the pipeline observes it: whether the target
table already exists (`SHOW TABLES LIKE`), and the outcome of the
`attempt`-th submission (0 = first, 1 = retry) of batch number `batch`. -/
structure Oracle where
  tableExists : Bool
  insertResult : Nat → Nat → InsertOutcome

/-- A statement executed against the store, as recorded in the trace. -/
inductive DbOp
  | upsertProcessing
  | setStatus (s : FileStatus)
  | dropTable (t : String)
  | showTablesLike (t : String)
  | createTable (t : String) (schema : TableSchema) (nullability : Nullability)
  | insertBatch (t : String) (vals : List (List SqlValue))
  | describeTable (t : String)
  | alterModifyNull (t : String) (c : String)
  | setProcessed (rowCount : Nat)
  deriving DecidableEq

/-- Does the operation create, drop, alter, or insert into a data table?
(`showTablesLike`/`describeTable` are reads; the status updates touch only
the `files` registry.) -/
def isTableMutation : DbOp → Bool
  | .dropTable _ => true
  | .createTable _ _ _ => true
  | .insertBatch _ _ => true
  | .alterModifyNull _ _ => true
  | _ => false

/-- The batches submitted in a trace, in submission order. -/
def insertedBatches (tr : List DbOp) : List (List (List SqlValue)) :=
  tr.filterMap (fun op =>
    match op with
    | .insertBatch _ vals => some vals
    | _ => none)

/-! ## File-name handling (`path.extname` / `path.basename`) -/

/-- `path.extname` on a bare file name: the suffix from the last dot, empty
when there is no dot or the name starts with its only dot. -/
def extname (s : String) : String :=
  let r := s.data.reverse
  let afterDot := r.dropWhile (fun c => c ≠ '.')
  match afterDot with
  | [] => ""
  | _ :: pre => if pre.isEmpty then "" else String.mk ('.' :: (r.takeWhile (fun c => c ≠ '.')).reverse)

/-- `path.basename(name, ext)`: strip the extension suffix when it is a
proper suffix of the name. -/
def baseNameNoExt (name ext : String) : String :=
  if ext ≠ "" && ext.data.isSuffixOf name.data && ext.data.length < name.data.length then
    String.mk (name.data.take (name.data.length - ext.data.length))
  else name

/-- The extensions with a parser. -/
def isSupportedExt (ext : String) : Bool :=
  ext = ".csv" || ext = ".xlsx" || ext = ".xls"

/-- The `overrideMap` lookup: `csv/xlsx/xls` to dotted extensions. -/
def overrideExt (o : String) : Option String :=
  if o = "csv" then some ".csv"
  else if o = "xlsx" then some ".xlsx"
  else if o = "xls" then some ".xls"
  else none

/-- Extension resolution of `upload_old` (lines 188–195): keep a supported
extension, otherwise apply the explicit type override when it maps. -/
def resolveExt (ext0 override : String) : String :=
  if isSupportedExt ext0 then ext0
  else
    match overrideExt override with
    | some e => e
    | none => ext0

/-! ## The `importDataToTable` path (`fileImporter.ts`, lines 70–116) -/

/-- Result of an `importDataToTable` call: ran to completion, returned
early on the `fail` conflict policy, or threw (the thrown error propagates
to the caller; no status is written on that path). -/
inductive ImportOutcome
  | completed
  | returnedFailed
  | thrown
  deriving DecidableEq

/-- The batch loop of `importDataToTable` (lines 100–110): per batch,
encode the rows, and submit one multi-row insert when the flattened
parameter list is non-empty.  There is no error handling: the first
failing insert throws out of the loop. -/
def runBatchesNew (o : Oracle) (t : String) (headers : List String)
    (schema : TableSchema) : Nat → List (List Row) → List DbOp × Bool
  | _, [] => ([], true)
  | i, b :: bs =>
    let vals := b.map (fun r => mapRowToSqlColumns r headers schema)
    if vals.flatten.isEmpty then runBatchesNew o t headers schema (i + 1) bs
    else
      match o.insertResult i 0 with
      | .ok =>
        let rest := runBatchesNew o t headers schema (i + 1) bs
        (.insertBatch t vals :: rest.1, rest.2)
      | _ => ([.insertBatch t vals], false)

/-- `importDataToTable` from `fileImporter.ts`: derive the table name,
infer the schema, apply the conflict policy (`replace` drops, `fail`
checks existence and marks the source failed), create the table with the
hard-coded `all-nullable` policy, run the batch loop, and on success
record `row_count` and `status='processed'`.  Any insert error escapes the
function (`ImportOutcome.thrown`) — there is no widen-and-retry and no
zero-row guard on this path. -/
def importDataToTable (o : Oracle) (fileName : String) (parsed : ParsedData)
    (ifExists : String) (explicitTableName : String) : List DbOp × ImportOutcome :=
  let ext := jsLower (extname fileName)
  let suggested := jsLower (baseNameNoExt fileName ext)
  let tableName :=
    sanitizeSqlIdentifier (if explicitTableName ≠ "" then explicitTableName else suggested)
  let schema := inferTableSchema parsed.headers parsed.rows
  let conflictOps :=
    (if ifExists = "replace" then [DbOp.dropTable tableName] else []) ++
      (if ifExists = "fail" then [DbOp.showTablesLike tableName] else [])
  if ifExists = "fail" && o.tableExists then
    (conflictOps ++ [.setStatus .failed], .returnedFailed)
  else
    let bres := runBatchesNew o tableName parsed.headers schema 0 (chunkRows parsed.rows)
    if bres.2 then
      (conflictOps ++ [.createTable tableName schema .allNullable] ++ bres.1 ++
        [.setProcessed parsed.rows.length], .completed)
    else
      (conflictOps ++ [.createTable tableName schema .allNullable] ++ bres.1, .thrown)

/-! ## The `upload_old` handler (server entry file, lines 151–317) -/

/-- Per-file inputs of the `upload_old` handler: the raw extension of the
downloaded file, the explicit type override query parameter, the optional
explicit table name, the original file name, the conflict policy, the
nullability policy, and what the (external) parser produced.  The
`parseResult` is consulted only when the resolved extension is supported;
`none` models the parser returning null. -/
structure UploadConfig where
  extRaw : String
  overrideType : String
  explicitTableName : String
  originalName : String
  ifExists : String
  nullability : Nullability
  parseResult : Option ParsedData

/-- The batch loop of `upload_old` (lines 246–274) with the repair
protocol: a first insert failure whose message names a not-null column
triggers `ALTER TABLE … MODIFY … NULL` (after resolving the column type
from the schema, or via `DESCRIBE` when the name is unknown) and a single
resubmission of the same statement; a failure of the resubmission — or any
error without a named column — aborts the loop as fatal. -/
def runBatchesOld (o : Oracle) (t : String) (headers : List String)
    (schema : TableSchema) : Nat → List (List Row) → List DbOp × Bool
  | _, [] => ([], true)
  | i, b :: bs =>
    let vals := b.map (fun r => mapRowToSqlColumns r headers schema)
    if vals.flatten.isEmpty then runBatchesOld o t headers schema (i + 1) bs
    else
      match o.insertResult i 0 with
      | .ok =>
        let rest := runBatchesOld o t headers schema (i + 1) bs
        (.insertBatch t vals :: rest.1, rest.2)
      | .nnViolation c =>
        let alterOps :=
          match schema.columns.find? (fun col => col.name = c) with
          | some _ => [DbOp.alterModifyNull t c]
          | none => [DbOp.describeTable t, DbOp.alterModifyNull t c]
        match o.insertResult i 1 with
        | .ok =>
          let rest := runBatchesOld o t headers schema (i + 1) bs
          (.insertBatch t vals :: (alterOps ++ .insertBatch t vals :: rest.1), rest.2)
        | _ =>
          (.insertBatch t vals :: (alterOps ++ [.insertBatch t vals]), false)
      | .otherError => ([.insertBatch t vals], false)

/-- One file's processing by the `upload_old` handler (lines 188–292):
upsert the registry row to `processing`; mark unsupported extensions; mark
empty parses (`!parsed || parsed.rows.length === 0`) as `empty` before any
DDL; otherwise derive the table name, infer the schema, apply the conflict
policy, create the table, run the repairing batch loop, and finish with
`row_count`/`processed` — any error inside the guarded block yields
`failed` for this file. -/
def processFile (o : Oracle) (cfg : UploadConfig) : List DbOp × FileStatus :=
  let ext := resolveExt cfg.extRaw cfg.overrideType
  let pre := [DbOp.upsertProcessing]
  if !isSupportedExt ext then
    (pre ++ [.setStatus .unsupported], .unsupported)
  else
    match cfg.parseResult with
    | none => (pre ++ [.setStatus .empty], .empty)
    | some parsed =>
      if parsed.rows.isEmpty then (pre ++ [.setStatus .empty], .empty)
      else
        let suggested := jsLower (baseNameNoExt cfg.originalName ext)
        let tableName :=
          sanitizeSqlIdentifier
            (if cfg.explicitTableName ≠ "" then cfg.explicitTableName else suggested)
        let schema := inferTableSchema parsed.headers parsed.rows
        let conflictOps :=
          (if cfg.ifExists = "replace" then [DbOp.dropTable tableName] else []) ++
            (if cfg.ifExists = "fail" then [DbOp.showTablesLike tableName] else [])
        if cfg.ifExists = "fail" && o.tableExists then
          (pre ++ conflictOps ++ [.setStatus .failed], .failed)
        else
          let bres := runBatchesOld o tableName parsed.headers schema 0 (chunkRows parsed.rows)
          if bres.2 then
            (pre ++ conflictOps ++ [.createTable tableName schema cfg.nullability] ++
              bres.1 ++ [.setProcessed parsed.rows.length], .processed)
          else
            (pre ++ conflictOps ++ [.createTable tableName schema cfg.nullability] ++
              bres.1 ++ [.setStatus .failed], .failed)

/-! ## Concrete scenario inputs -/

/-- A store where the target table does not pre-exist and every insert
succeeds. -/
def oracleAllOk : Oracle :=
  ⟨false, fun _ _ => .ok⟩

/-- A store where every first insert attempt fails with a not-null
violation on column `a` and every resubmission succeeds. -/
def oracleNNFirst : Oracle :=
  ⟨false, fun _ attempt => if attempt = 0 then .nnViolation "a" else .ok⟩

/-- A store where the target table already exists. -/
def oracleTableTaken : Oracle :=
  ⟨true, fun _ _ => .ok⟩

/-- A store where every insert attempt — including resubmissions — fails
with a not-null violation on column `a`. -/
def oracleNNAlways : Oracle :=
  ⟨false, fun _ _ => .nnViolation "a"⟩

/-- A parsed source with one header and zero rows. -/
def zeroRowSource : ParsedData :=
  ⟨["a"], []⟩

/-- A parsed source with one header and a single all-null row. -/
def oneNullRowSource : ParsedData :=
  ⟨["a"], [[("a", Cell.nullv)]]⟩

/-- An `upload_old` configuration for a CSV named `data.csv` with no
explicit table name. -/
def uploadCfg (pd : ParsedData) (ifE : String) : UploadConfig :=
  ⟨".csv", "", "", "data.csv", ifE, .allNullable, some pd⟩

/-! ## C1 — widen-and-retry on not-null violations -/

/-- C1: the claimed widen-and-retry protocol (alter the named column
nullable, resubmit the same batch exactly once, treat a second failure as
fatal) is implemented by the `upload_old` handler but not by the
`importDataToTable` path: there the first not-null violation escapes with
no `ALTER` and no resubmission.  Evaluated at a one-row source whose first
insert attempt fails with `Column 'a' cannot be null` and whose
resubmission would succeed: `upload_old` alters, resubmits once and
finishes `processed`, while `importDataToTable` throws after the single
failed insert.  When the resubmission fails again, `upload_old` does not
retry a third time: the batch is submitted exactly twice and the source
ends `failed`. -/
theorem importDataToTable_drops_widen_retry :
    importDataToTable oracleNNFirst "data.csv" oneNullRowSource "append" "" =
      ([.createTable "data" ⟨[⟨"a", "a", .LONGTEXT, true⟩]⟩ .allNullable,
        .insertBatch "data" [[.nullv]]], .thrown) ∧
      processFile oracleNNFirst (uploadCfg oneNullRowSource "append") =
        ([.upsertProcessing,
          .createTable "data" ⟨[⟨"a", "a", .LONGTEXT, true⟩]⟩ .allNullable,
          .insertBatch "data" [[.nullv]],
          .alterModifyNull "data" "a",
          .insertBatch "data" [[.nullv]],
          .setProcessed 1], .processed) ∧
      processFile oracleNNAlways (uploadCfg oneNullRowSource "append") =
        ([.upsertProcessing,
          .createTable "data" ⟨[⟨"a", "a", .LONGTEXT, true⟩]⟩ .allNullable,
          .insertBatch "data" [[.nullv]],
          .alterModifyNull "data" "a",
          .insertBatch "data" [[.nullv]],
          .setStatus .failed], .failed) := by
  decide

/-! ## C2 — zero parsed rows -/

/-- C2: the claimed zero-row behaviour (`status = empty`, no DDL) holds in
the `upload_old` handler but not on the `importDataToTable` path, which
has no zero-row guard: for a source with one header and zero rows it
executes the create-table DDL and records `row_count = 0`,
`status = 'processed'`. -/
theorem importDataToTable_zero_rows_creates_table :
    importDataToTable oracleAllOk "data.csv" zeroRowSource "append" "" =
      ([.createTable "data" ⟨[⟨"a", "a", .LONGTEXT, false⟩]⟩ .allNullable,
        .setProcessed 0], .completed) ∧
      processFile oracleAllOk (uploadCfg zeroRowSource "append") =
        ([.upsertProcessing, .setStatus .empty], .empty) := by
  decide

/-! ## C3 — all-plain-date columns -/

/-- C3 counterexample: a column whose every non-null sampled value matches
plain `YYYY-MM-DD` (and none matches the date-time shape) is classified
`DATETIME`, not `DATE`: the mixed date-or-date-time branch of the cascade
fires before the pure-date branch, which is unreachable. -/
theorem detectType_pure_dates_not_DATE :
    ["2024-01-01"].all isIsoDate = true ∧
      ["2024-01-01"].all (fun v => !isIsoDateTime v) = true ∧
      detectType ["2024-01-01"] = .DATETIME ∧
      detectType ["2024-01-01"] ≠ .DATE := by
  decide

/-! ## C4 — nullability counting -/

/-- C4 counterexample: a sampled row in which the header is absent
(`undefined`) does not make the column nullable — the source filters
`undefined` out of both counts.  With one sampled row lacking the header,
the claim demands `nullable = true`, but the inferred flag is `false`. -/
theorem absent_value_not_counted_nullable :
    lookupCell ([] : Row) "a" = none ∧
      (inferTableSchema ["a"] [([] : Row)]).columns =
        [⟨"a", "a", .LONGTEXT, false⟩] := by
  decide

/-! ## C7 — dedup suffixing -/

/-- C7 counterexample: with three headers sanitizing to `a`, the dedup
step yields `a`, `a_1`, `a_1_2` — the counter is appended to the last
tried candidate, not to the sanitized identifier, so the third identifier
is not `a_2` as the claim's `_1, _2, …` scheme prescribes. -/
theorem dedupNames_suffix_compounds :
    dedupNames ["a", "a", "a"] ∅ = ["a", "a_1", "a_1_2"] ∧
      dedupNames ["a", "a", "a"] ∅ ≠
        [sanitizeSqlIdentifier "a", sanitizeSqlIdentifier "a" ++ "_1",
          sanitizeSqlIdentifier "a" ++ "_2"] := by
  decide

/-! ## C5 and C6 — sanitizer shape and idempotence -/

/-- C5: the spec's invariant (sanitized output matches `^[a-z][a-z0-9_]*$`
or is the placeholder) is broken by the source: the `col_` digit guard
runs before leading underscores are stripped, so `"_1"` sanitizes to
`"1"`, which starts with a digit and is not the placeholder. -/
theorem sanitize_digit_guard_bypassed :
    sanitizeSqlIdentifier "_1" = "1" ∧
      specIdentShape (sanitizeSqlIdentifier "_1") = false ∧
      sanitizeSqlIdentifier "_1" ≠ "col_unnamed" := by
  decide

/-- C6: `sanitizeSqlIdentifier` is not idempotent: `"_1"` sanitizes to
`"1"`, and sanitizing again prefixes the digit guard, giving `"col_1"`. -/
theorem sanitize_not_idempotent :
    sanitizeSqlIdentifier "_1" = "1" ∧
      sanitizeSqlIdentifier (sanitizeSqlIdentifier "_1") = "col_1" ∧
      sanitizeSqlIdentifier (sanitizeSqlIdentifier "_1") ≠
        sanitizeSqlIdentifier "_1" := by
  decide

/-! ## Dedup freshness -/

/-- Every failed probe of the dedup loop strictly lengthens the candidate,
so the candidates are pairwise distinct. -/
theorem freshName_probe_longer (name : String) (suffix : Nat) :
    name.length < (name ++ "_" ++ toString suffix).length := by
  have h1 : ("_" : String).length = 1 := rfl
  simp only [String.length_append, h1]
  omega

/-- With more fuel than there are used names at least as long as the
candidate, the dedup loop returns a name outside `used`. -/
theorem freshName_not_mem :
    ∀ (fuel : Nat) (used : Finset String) (name : String) (suffix : Nat),
      (used.filter (fun u => name.length ≤ u.length)).card < fuel →
      freshName fuel used name suffix ∉ used := by
  intro fuel
  induction fuel with
  | zero => intro used name suffix h; exact absurd h (Nat.not_lt_zero _)
  | succ fuel ih =>
    intro used name suffix h
    by_cases hm : name ∈ used
    · simp only [freshName, hm, if_pos]
      apply ih
      have hsub : used.filter (fun u => (name ++ "_" ++ toString suffix).length ≤ u.length) ⊆
          used.filter (fun u => name.length ≤ u.length) := by
        intro x hx
        rw [Finset.mem_filter] at hx ⊢
        exact ⟨hx.1, le_trans (le_of_lt (freshName_probe_longer name suffix)) hx.2⟩
      have hmemA : name ∈ used.filter (fun u => name.length ≤ u.length) := by
        simp [Finset.mem_filter, hm]
      have hnotB : name ∉
          used.filter (fun u => (name ++ "_" ++ toString suffix).length ≤ u.length) := by
        simp only [Finset.mem_filter, not_and]
        intro _
        simp only [not_le]
        exact freshName_probe_longer name suffix
      have hss : used.filter (fun u => (name ++ "_" ++ toString suffix).length ≤ u.length) ⊂
          used.filter (fun u => name.length ≤ u.length) :=
        ⟨hsub, fun hc => hnotB (hc hmemA)⟩
      exact lt_of_lt_of_le (Finset.card_lt_card hss) (Nat.lt_succ_iff.mp h)
    · simp [freshName, hm]

/-- The names chosen by the dedup step avoid the running `used` set and are
pairwise distinct. -/
theorem dedupNames_nodup_avoids :
    ∀ (hs : List String) (used : Finset String),
      (dedupNames hs used).Nodup ∧ ∀ n ∈ dedupNames hs used, n ∉ used := by
  intro hs
  induction hs with
  | nil => intro used; simp [dedupNames]
  | cons h t ih =>
    intro used
    have hfresh :
        freshName (used.card + 1) used (sanitizeSqlIdentifier h) 1 ∉ used := by
      apply freshName_not_mem
      exact Nat.lt_succ_of_le (Finset.card_filter_le _ _)
    obtain ⟨ihnd, ihavoid⟩ :=
      ih (insert (freshName (used.card + 1) used (sanitizeSqlIdentifier h) 1) used)
    constructor
    · refine List.nodup_cons.mpr ⟨?_, ihnd⟩
      intro hmem
      exact (ihavoid _ hmem) (Finset.mem_insert_self _ _)
    · intro n hn
      rcases List.mem_cons.mp hn with hn | hn
      · exact hn ▸ hfresh
      · exact fun hnu => (ihavoid n hn) (Finset.mem_insert_of_mem hnu)

/-- The dedup step emits exactly one name per header. -/
theorem dedupNames_length :
    ∀ (hs : List String) (used : Finset String),
      (dedupNames hs used).length = hs.length := by
  intro hs
  induction hs with
  | nil => intro used; simp [dedupNames]
  | cons h t ih => intro used; simp [dedupNames, ih]

/-- C7 (amended): for every header list — duplicates included — the dedup
step yields pairwise-distinct column identifiers, one per input header.
(The collision scheme appends the incrementing counter to the last tried
candidate, so a third duplicate becomes `a_1_2` rather than `a_2`; see the
counterexample.) -/
theorem dedupNames_distinct_and_counted (headers : List String) :
    (dedupNames headers ∅).Nodup ∧
      (dedupNames headers ∅).length = headers.length :=
  ⟨(dedupNames_nodup_avoids headers ∅).1, dedupNames_length headers ∅⟩

/-! ## Nullability counting -/

/-- A filter shrinks a list exactly when some element fails the predicate. -/
theorem length_filter_lt_iff_exists_not {α : Type} (p : α → Bool) :
    ∀ l : List α, ((l.filter p).length < l.length ↔ ∃ c ∈ l, p c = false) := by
  intro l
  induction l with
  | nil => simp
  | cons c t ih =>
    by_cases hp : p c = true
    · simp only [List.filter_cons, hp, if_pos, List.length_cons]
      rw [Nat.succ_lt_succ_iff, ih]
      constructor
      · rintro ⟨x, hx, hpx⟩
        exact ⟨x, List.mem_cons_of_mem c hx, hpx⟩
      · rintro ⟨x, hx, hpx⟩
        rcases List.mem_cons.mp hx with rfl | hx
        · exact absurd hp (by simp [hpx])
        · exact ⟨x, hx, hpx⟩
    · have hf : p c = false := Bool.eq_false_iff.mpr hp
      constructor
      · intro _
        exact ⟨c, List.mem_cons_self c t, hf⟩
      · intro _
        simp only [List.filter_cons, hf, Bool.false_eq_true, if_neg, List.length_cons]
        exact Nat.lt_succ_of_le (List.length_filter_le p t)

/-- The inferred nullability flag is set exactly when some *present*
sampled value of the column is null or the empty string.  (Rows where the
header is absent contribute to neither count.) -/
theorem columnNullable_iff (sample : List Row) (h : String) :
    columnNullable sample h = true ↔
      ∃ r ∈ sample, (lookupCell r h).any isNullOrEmptyCell = true := by
  unfold columnNullable columnNonNull
  rw [decide_eq_true_eq, length_filter_lt_iff_exists_not]
  unfold columnValues
  constructor
  · rintro ⟨c, hc, hpc⟩
    obtain ⟨r, hr, hlook⟩ := List.mem_filterMap.mp hc
    refine ⟨r, hr, ?_⟩
    rw [hlook]
    simpa using hpc
  · rintro ⟨r, hr, hany⟩
    match hlook : lookupCell r h with
    | none => rw [hlook] at hany; exact absurd hany (by simp [Option.any])
    | some c =>
      rw [hlook] at hany
      refine ⟨c, List.mem_filterMap.mpr ⟨r, hr, hlook⟩, ?_⟩
      simpa using hany

/-- C4 (amended): a column's detected `nullable` flag is true exactly when
the count of non-null, non-empty values is less than the count of values
*present* for that column among the sampled rows — equivalently, exactly
when some sampled row carries the header with a null or empty value.
Sampled rows in which the header is absent are excluded from both counts
and do not make the column nullable. -/
theorem inferTableSchema_nullable_iff (headers : List String) (rows : List Row)
    (col : ColumnSchema) (hc : col ∈ (inferTableSchema headers rows).columns) :
    col.nullable = true ↔
      ∃ r ∈ rows.take 1000,
        (lookupCell r col.originalHeader).any isNullOrEmptyCell = true := by
  unfold inferTableSchema at hc
  simp only [List.mem_map] at hc
  obtain ⟨nh, _, rfl⟩ := hc
  exact columnNullable_iff _ _

/-- Witness for C4's amended theorem: a single sampled row carrying an
explicit null makes the column nullable. -/
theorem inferTableSchema_nullable_iff_witness :
    ((⟨"a", "a", .LONGTEXT, true⟩ : ColumnSchema) ∈
        (inferTableSchema ["a"] [[("a", Cell.nullv)]]).columns) ∧
      ((⟨"a", "a", SqlType.LONGTEXT, true⟩ : ColumnSchema).nullable = true ↔
        ∃ r ∈ ([[("a", Cell.nullv)]] : List Row).take 1000,
          (lookupCell r (⟨"a", "a", SqlType.LONGTEXT, true⟩ : ColumnSchema).originalHeader).any
            isNullOrEmptyCell = true) :=
  ⟨by decide,
    inferTableSchema_nullable_iff ["a"] [[("a", Cell.nullv)]] _ (by decide)⟩

/-! ## Shape facts about the date regular expressions -/

/-- A list matching the plain-date shape is exactly four digits, a hyphen,
two digits, a hyphen, and two digits. -/
theorem dateShape_destruct (cs : List Char) (h : dateShape cs = true) :
    ∃ y1 y2 y3 y4 m1 m2 d1 d2,
      cs = [y1, y2, y3, y4, '-', m1, m2, '-', d1, d2] ∧
        y1.isDigit = true ∧ y2.isDigit = true ∧ y3.isDigit = true ∧
        y4.isDigit = true ∧ m1.isDigit = true ∧ m2.isDigit = true ∧
        d1.isDigit = true ∧ d2.isDigit = true := by
  unfold dateShape at h
  split at h
  · next y1 y2 y3 y4 s1 m1 m2 s2 d1 d2 =>
    simp only [Bool.and_eq_true, decide_eq_true_eq] at h
    obtain ⟨⟨⟨⟨⟨⟨⟨⟨⟨h1, h2⟩, h3⟩, h4⟩, h5⟩, h6⟩, h7⟩, h8⟩, h9⟩, h10⟩ := h
    subst h5
    subst h8
    exact ⟨y1, y2, y3, y4, m1, m2, d1, d2, rfl, h1, h2, h3, h4, h6, h7, h9, h10⟩
  · exact absurd h (by simp)

/-- A list matching the date-time shape has at least 19 characters. -/
theorem dateTimeShape_min_length (cs : List Char) (h : dateTimeShape cs = true) :
    19 ≤ cs.length := by
  unfold dateTimeShape at h
  split at h
  · next rest =>
    simp only [List.length_cons]
    omega
  · exact absurd h (by simp)

/-- A digit is not a sign character. -/
theorem isDigit_not_sign (c : Char) (h : c.isDigit = true) :
    c ≠ '+' ∧ c ≠ '-' := by
  constructor
  · intro he; rw [he] at h; exact absurd h (by decide)
  · intro he; rw [he] at h; exact absurd h (by decide)

/-- The hyphen is not a digit. -/
theorem hyphen_not_digit : ('-' : Char).isDigit = false := by
  decide

/-- A plain-date list fails the integer regular expression (the hyphen at
position 4 is neither a sign nor a digit). -/
theorem dateShape_not_intShape (cs : List Char) (h : dateShape cs = true) :
    intShape cs = false := by
  obtain ⟨y1, y2, y3, y4, m1, m2, d1, d2, rfl, h1, _, _, _, _, _, _, _⟩ :=
    dateShape_destruct cs h
  obtain ⟨hp, hm⟩ := isDigit_not_sign y1 h1
  simp [intShape, hp, hm, hyphen_not_digit]

/-- A plain-date list fails the float regular expression. -/
theorem dateShape_not_floatShape (cs : List Char) (h : dateShape cs = true) :
    floatShape cs = false := by
  obtain ⟨y1, y2, y3, y4, m1, m2, d1, d2, rfl, h1, h2, h3, h4, _, _, _, _⟩ :=
    dateShape_destruct cs h
  obtain ⟨hp, hm⟩ := isDigit_not_sign y1 h1
  simp [floatShape, hp, hm, mantissa, h1, h2, h3, h4, hyphen_not_digit, fracTail]

/-- A plain-date list is not the date-time shape (too short). -/
theorem dateShape_not_dateTimeShape (cs : List Char) (h : dateShape cs = true) :
    dateTimeShape cs = false := by
  obtain ⟨y1, y2, y3, y4, m1, m2, d1, d2, rfl, _⟩ := dateShape_destruct cs h
  cases hb : dateTimeShape [y1, y2, y3, y4, '-', m1, m2, '-', d1, d2] with
  | false => rfl
  | true =>
    have h19 := dateTimeShape_min_length _ hb
    simp at h19

/-- A boolean-like value trims to at most five characters. -/
theorem isBooleanLike_trim_short (s : String) (h : isBooleanLike s = true) :
    (trimChars s.data).length ≤ 5 := by
  unfold isBooleanLike at h
  simp only [decide_eq_true_eq, List.mem_cons, List.not_mem_nil, or_false] at h
  rcases h with h | h | h | h | h | h | h | h <;>
    · have hl := congrArg List.length h
      rw [List.length_map] at hl
      rw [hl]
      decide

/-- An ISO-date value is non-empty and trims to the plain-date shape. -/
theorem isIsoDate_props (s : String) (h : isIsoDate s = true) :
    s ≠ "" ∧ dateShape (trimChars s.data) = true := by
  unfold isIsoDate at h
  split at h
  · exact absurd h (by simp)
  · next hne => exact ⟨hne, h⟩

/-- An ISO-date value is not boolean-like (wrong length). -/
theorem isIsoDate_not_booleanLike (s : String) (h : isIsoDate s = true) :
    isBooleanLike s = false := by
  obtain ⟨_, hd⟩ := isIsoDate_props s h
  cases hb : isBooleanLike s with
  | false => rfl
  | true =>
    have hshort := isBooleanLike_trim_short s hb
    obtain ⟨y1, y2, y3, y4, m1, m2, d1, d2, heq, _⟩ := dateShape_destruct _ hd
    rw [heq] at hshort
    simp at hshort

/-- An ISO-date value is not integer-like. -/
theorem isIsoDate_not_integerLike (s : String) (h : isIsoDate s = true) :
    isIntegerLike s = false := by
  obtain ⟨hne, hd⟩ := isIsoDate_props s h
  unfold isIntegerLike
  rw [if_neg hne]
  exact dateShape_not_intShape _ hd

/-- An ISO-date value is not float-like. -/
theorem isIsoDate_not_floatLike (s : String) (h : isIsoDate s = true) :
    isFloatLike s = false := by
  obtain ⟨hne, hd⟩ := isIsoDate_props s h
  unfold isFloatLike
  rw [if_neg hne]
  simp [dateShape_not_floatShape _ hd]

/-- C3 (amended): a column whose non-null, non-empty sampled values all
match plain `YYYY-MM-DD` (and none matches the date-time shape) is
classified `DATETIME`, not `DATE`: the combined date-or-date-time branch
of the cascade fires first, so the pure `DATE` branch is unreachable. -/
theorem detectType_all_plain_dates (vs : List String) (hne : vs ≠ [])
    (hdates : vs.all isIsoDate = true)
    (hnodt : vs.all (fun v => !isIsoDateTime v) = true) :
    detectType vs = .DATETIME := by
  obtain ⟨v, vs', rfl⟩ := List.exists_cons_of_ne_nil hne
  have hv : isIsoDate v = true := by
    have := List.all_eq_true.mp hdates v (List.mem_cons_self v vs')
    simpa using this
  have hvdt : isIsoDateTime v = false := by
    have := List.all_eq_true.mp hnodt v (List.mem_cons_self v vs')
    simpa using this
  have hb := isIsoDate_not_booleanLike v hv
  have hi := isIsoDate_not_integerLike v hv
  have hf := isIsoDate_not_floatLike v hv
  have c2 : (v :: vs').all isBooleanLike = false := by
    simp [List.all_cons, hb]
  have c3 : (v :: vs').all isIntegerLike = false := by
    simp [List.all_cons, hi]
  have c4 : (v :: vs').all (fun x => isIntegerLike x || isFloatLike x) = false := by
    simp [List.all_cons, hi, hf]
  have c5 : (v :: vs').all isIsoDateTime = false := by
    simp [List.all_cons, hvdt]
  have c6 : (v :: vs').all (fun x => isIsoDateTime x || isIsoDate x) = true := by
    rw [List.all_eq_true] at hdates ⊢
    intro x hx
    simp [hdates x hx]
  unfold detectType
  rw [c2, c3, c4, c5, c6]
  simp

/-- Witness for C3's amended theorem: the singleton plain-date column. -/
theorem detectType_all_plain_dates_witness :
    (["2024-01-01"] ≠ ([] : List String)) ∧
      ["2024-01-01"].all isIsoDate = true ∧
      ["2024-01-01"].all (fun v => !isIsoDateTime v) = true ∧
      detectType ["2024-01-01"] = .DATETIME :=
  ⟨by decide, by decide, by decide,
    detectType_all_plain_dates _ (by decide) (by decide) (by decide)⟩

/-! ## C10 — boolean encoding of non-truthy values -/

/-- C10: for a `BOOLEAN`-typed column, the row encoder maps every
non-null, non-empty cell whose trimmed, lowercased form is not among the
truthy tokens `true/yes/y/1` to the number 0 — including arbitrary text
entirely outside the detector's boolean token set; the result is never
null and never an error. -/
theorem mapRow_boolean_nontruthy_zero (row : Row) (headers : List String)
    (schema : TableSchema) (i : Nat) (col : ColumnSchema)
    (hcol : schema.columns[i]? = some col)
    (hbool : col.type = .BOOLEAN) (s : String)
    (hlook : lookupCell row col.originalHeader = some (.str s))
    (hne : s ≠ "")
    (hnt : truthyTokens.contains (jsLower (jsTrim s)) = false) :
    (mapRowToSqlColumns row headers schema)[i]? = some (.num 0) := by
  unfold mapRowToSqlColumns
  rw [List.getElem?_map, hcol]
  simp [hlook, hbool, encodeCell, hne, hnt]
  simpa using hnt

/-- Witness for C10: the text `banana` in a boolean column encodes as 0. -/
theorem mapRow_boolean_nontruthy_zero_witness :
    ((⟨[⟨"b", "b", .BOOLEAN, true⟩]⟩ : TableSchema).columns[0]? =
        some ⟨"b", "b", .BOOLEAN, true⟩) ∧
      (lookupCell [("b", Cell.str "banana")] "b" = some (.str "banana")) ∧
      truthyTokens.contains (jsLower (jsTrim "banana")) = false ∧
      (mapRowToSqlColumns [("b", Cell.str "banana")] ["b"]
          ⟨[⟨"b", "b", .BOOLEAN, true⟩]⟩)[0]? = some (.num 0) :=
  ⟨by decide, by decide, by decide,
    mapRow_boolean_nontruthy_zero [("b", Cell.str "banana")] ["b"]
      ⟨[⟨"b", "b", .BOOLEAN, true⟩]⟩ 0 ⟨"b", "b", .BOOLEAN, true⟩ (by decide) rfl
      "banana" (by decide) (by decide) (by decide)⟩

/-! ## C8 — conflict policy `fail` with a pre-existing table -/

/-- C8: under conflict policy `fail`, when the target table already
exists, both import paths record `status = failed` and return without
executing any DDL or DML on data tables (no drop, no create, no insert,
no alter — the existence probe and the registry status update are the
only statements issued). -/
theorem fail_policy_no_table_mutation (o : Oracle) (ho : o.tableExists = true)
    (fileName explicitName : String) (parsed : ParsedData)
    (cfg : UploadConfig) (hcfg : cfg.ifExists = "fail")
    (hpr : cfg.parseResult = some parsed) (hrows : parsed.rows ≠ [])
    (hext : isSupportedExt (resolveExt cfg.extRaw cfg.overrideType) = true) :
    ((importDataToTable o fileName parsed "fail" explicitName).2 = .returnedFailed ∧
        ∀ op ∈ (importDataToTable o fileName parsed "fail" explicitName).1,
          isTableMutation op = false) ∧
      ((processFile o cfg).2 = .failed ∧
        ∀ op ∈ (processFile o cfg).1, isTableMutation op = false) := by
  have hrowsEmpty : parsed.rows.isEmpty = false := by
    cases hr : parsed.rows with
    | nil => exact absurd hr hrows
    | cons x xs => rfl
  constructor
  · constructor
    · simp [importDataToTable, ho]
    · intro op hop
      simp only [importDataToTable, ho] at hop
      simp at hop
      rcases hop with rfl | rfl <;> rfl
  · constructor
    · simp [processFile, hext, hpr, hrowsEmpty, hcfg, ho]
    · intro op hop
      simp only [processFile, hext, hpr, hrowsEmpty, hcfg, ho] at hop
      simp at hop
      rcases hop with rfl | rfl | rfl <;> rfl

/-- Witness for C8: a one-row CSV source under `fail` against a store
whose target table exists. -/
theorem fail_policy_no_table_mutation_witness :
    oracleTableTaken.tableExists = true ∧
      (((importDataToTable oracleTableTaken "data.csv" oneNullRowSource "fail" "").2 =
            .returnedFailed ∧
          ∀ op ∈ (importDataToTable oracleTableTaken "data.csv" oneNullRowSource "fail" "").1,
            isTableMutation op = false) ∧
        ((processFile oracleTableTaken (uploadCfg oneNullRowSource "fail")).2 = .failed ∧
          ∀ op ∈ (processFile oracleTableTaken (uploadCfg oneNullRowSource "fail")).1,
            isTableMutation op = false)) :=
  ⟨rfl,
    fail_policy_no_table_mutation oracleTableTaken rfl "data.csv" "" oneNullRowSource
      (uploadCfg oneNullRowSource "fail") rfl rfl (by decide) (by decide)⟩

/-! ## Batch partition facts -/

/-- With enough fuel, concatenating the batches recovers the row list. -/
theorem chunkRowsFuel_flatten :
    ∀ (fuel : Nat) (xs : List Row), xs.length ≤ fuel →
      (chunkRowsFuel fuel xs).flatten = xs := by
  intro fuel
  induction fuel with
  | zero =>
    intro xs h
    have hnil : xs = [] := List.eq_nil_of_length_eq_zero (Nat.le_zero.mp h)
    subst hnil
    rfl
  | succ f ih =>
    intro xs h
    cases xs with
    | nil => rfl
    | cons x t =>
      show ((x :: t).take 500 :: chunkRowsFuel f ((x :: t).drop 500)).flatten = x :: t
      rw [List.flatten_cons, ih ((x :: t).drop 500) ?hlen]
      · exact List.take_append_drop 500 (x :: t)
      case hlen =>
        rw [List.length_drop]
        simp only [List.length_cons] at h ⊢
        omega

/-- Every batch is non-empty and holds at most 500 rows. -/
theorem chunkRowsFuel_mem :
    ∀ (fuel : Nat) (xs : List Row), ∀ b ∈ chunkRowsFuel fuel xs,
      b ≠ [] ∧ b.length ≤ 500 := by
  intro fuel
  induction fuel with
  | zero => intro xs b hb; simp [chunkRowsFuel] at hb
  | succ f ih =>
    intro xs b hb
    cases xs with
    | nil => simp [chunkRowsFuel] at hb
    | cons x t =>
      rcases List.mem_cons.mp hb with rfl | hb
      · constructor
        · rw [List.take_succ_cons]
          exact List.cons_ne_nil x _
        · rw [List.length_take]
          exact min_le_left _ _
      · exact ih _ b hb

/-- Batch sizes depend only on the row count. -/
theorem chunkRowsFuel_sizes :
    ∀ (fuel : Nat) (xs : List Row),
      (chunkRowsFuel fuel xs).map List.length = chunkSizesFuel fuel xs.length := by
  intro fuel
  induction fuel with
  | zero => intro xs; simp [chunkRowsFuel, chunkSizesFuel]
  | succ f ih =>
    intro xs
    cases xs with
    | nil => simp [chunkRowsFuel, chunkSizesFuel]
    | cons x t =>
      show ((x :: t).take 500 :: chunkRowsFuel f ((x :: t).drop 500)).map List.length =
        chunkSizesFuel (f + 1) (x :: t).length
      rw [List.map_cons, ih ((x :: t).drop 500), List.length_take, List.length_drop]
      rfl

/-- A zero row count yields no batch sizes, whatever the fuel. -/
theorem chunkSizesFuel_zero : ∀ (fuel : Nat), chunkSizesFuel fuel 0 = [] := by
  intro fuel
  cases fuel <;> rfl

/-- Every batch size except possibly the last equals 500. -/
theorem chunkSizesFuel_prefix_500 :
    ∀ (fuel n i : Nat), i + 1 < (chunkSizesFuel fuel n).length →
      (chunkSizesFuel fuel n)[i]? = some 500 := by
  intro fuel
  induction fuel with
  | zero => intro n i h; simp [chunkSizesFuel] at h
  | succ f ih =>
    intro n i h
    cases n with
    | zero => simp [chunkSizesFuel] at h
    | succ m =>
      have hstep : chunkSizesFuel (f + 1) (m + 1) =
          min 500 (m + 1) :: chunkSizesFuel f (m + 1 - 500) := rfl
      rw [hstep] at h ⊢
      cases i with
      | zero =>
        have htail : chunkSizesFuel f (m + 1 - 500) ≠ [] := by
          intro h0
          rw [h0] at h
          simp at h
        have hm : m + 1 - 500 ≠ 0 := by
          intro h0
          exact htail (h0 ▸ chunkSizesFuel_zero f)
        have hmin : min 500 (m + 1) = 500 := by omega
        simp [hmin]
      | succ j =>
        rw [List.getElem?_cons_succ]
        apply ih
        simp only [List.length_cons] at h
        omega

/-- A non-empty batch over a non-empty column list flattens to a non-empty
parameter list, so its insert is never skipped. -/
theorem batch_params_not_empty (headers : List String) (schema : TableSchema)
    (hcols : schema.columns ≠ []) (b : List Row) (hb : b ≠ []) :
    (b.map (fun r => mapRowToSqlColumns r headers schema)).flatten.isEmpty = false := by
  cases b with
  | nil => exact absurd rfl hb
  | cons r b2 =>
    rw [Bool.eq_false_iff]
    intro hemp
    rw [List.isEmpty_iff] at hemp
    rw [List.map_cons, List.flatten_cons, List.append_eq_nil] at hemp
    have : schema.columns = [] := List.map_eq_nil_iff.mp hemp.1
    exact hcols this

/-- Under an all-successful store, the `importDataToTable` batch loop
submits exactly one insert per batch, in order. -/
theorem runBatchesNew_all_ok (o : Oracle) (t : String) (headers : List String)
    (schema : TableSchema) (hok : ∀ i a, o.insertResult i a = .ok)
    (hcols : schema.columns ≠ []) :
    ∀ (bs : List (List Row)) (i : Nat), (∀ b ∈ bs, b ≠ []) →
      runBatchesNew o t headers schema i bs =
        (bs.map (fun b =>
          DbOp.insertBatch t (b.map (fun r => mapRowToSqlColumns r headers schema))), true) := by
  intro bs
  induction bs with
  | nil => intro i _; rfl
  | cons b bs2 ih =>
    intro i hne
    have hb := hne b (List.mem_cons_self b bs2)
    have hflat := batch_params_not_empty headers schema hcols b hb
    show (if (b.map (fun r => mapRowToSqlColumns r headers schema)).flatten.isEmpty
        then _ else _) = _
    rw [hflat]
    simp only [Bool.false_eq_true, if_false, hok i 0]
    rw [ih (i + 1) (fun x hx => hne x (List.mem_cons_of_mem b hx))]
    simp

/-- Under an all-successful store, the `upload_old` batch loop also submits
exactly one insert per batch — the repair branch is never taken. -/
theorem runBatchesOld_all_ok (o : Oracle) (t : String) (headers : List String)
    (schema : TableSchema) (hok : ∀ i a, o.insertResult i a = .ok)
    (hcols : schema.columns ≠ []) :
    ∀ (bs : List (List Row)) (i : Nat), (∀ b ∈ bs, b ≠ []) →
      runBatchesOld o t headers schema i bs =
        (bs.map (fun b =>
          DbOp.insertBatch t (b.map (fun r => mapRowToSqlColumns r headers schema))), true) := by
  intro bs
  induction bs with
  | nil => intro i _; rfl
  | cons b bs2 ih =>
    intro i hne
    have hb := hne b (List.mem_cons_self b bs2)
    have hflat := batch_params_not_empty headers schema hcols b hb
    show (if (b.map (fun r => mapRowToSqlColumns r headers schema)).flatten.isEmpty
        then _ else _) = _
    rw [hflat]
    simp only [Bool.false_eq_true, if_false, hok i 0]
    rw [ih (i + 1) (fun x hx => hne x (List.mem_cons_of_mem b hx))]
    simp

/-- `insertedBatches` distributes over trace concatenation. -/
theorem insertedBatches_append (l1 l2 : List DbOp) :
    insertedBatches (l1 ++ l2) = insertedBatches l1 ++ insertedBatches l2 :=
  List.filterMap_append l1 l2 _

/-- The inserts of a pure insert sequence are its payloads. -/
theorem insertedBatches_map_insert {α : Type} (t : String)
    (f : α → List (List SqlValue)) (l : List α) :
    insertedBatches (l.map (fun b => DbOp.insertBatch t (f b))) = l.map f := by
  induction l with
  | nil => rfl
  | cons x xs ih => simp [insertedBatches, List.filterMap_cons] at ih ⊢; exact ih

/-- The conflict-policy operations contain no inserts. -/
theorem insertedBatches_conflictOps (ifE t : String) :
    insertedBatches ((if ifE = "replace" then [DbOp.dropTable t] else []) ++
      (if ifE = "fail" then [DbOp.showTablesLike t] else [])) = [] := by
  by_cases h1 : ifE = "replace" <;> by_cases h2 : ifE = "fail" <;>
    simp [h1, h2, insertedBatches]

/-- The inferred schema has exactly one column per header. -/
theorem inferTableSchema_ncols (headers : List String) (rows : List Row) :
    (inferTableSchema headers rows).columns.length = headers.length := by
  simp [inferTableSchema, dedupNames_length]

/-- Column lists inferred from a non-empty header list are non-empty. -/
theorem inferTableSchema_cols_ne_nil (headers : List String) (rows : List Row)
    (hheaders : headers ≠ []) :
    (inferTableSchema headers rows).columns ≠ [] := by
  intro h0
  apply hheaders
  have hlen := inferTableSchema_ncols headers rows
  rw [h0] at hlen
  exact List.eq_nil_of_length_eq_zero hlen.symm

/-- On the `importDataToTable` path, an all-successful store receives
exactly one insert per 500-row batch, in order. -/
theorem importDataToTable_one_insert_per_batch (o : Oracle)
    (hok : ∀ i a, o.insertResult i a = .ok)
    (fileName explicitName ifE : String) (parsed : ParsedData)
    (hheaders : parsed.headers ≠ [])
    (hnf : ¬(ifE = "fail" ∧ o.tableExists = true)) :
    insertedBatches (importDataToTable o fileName parsed ifE explicitName).1 =
      (chunkRows parsed.rows).map (fun b =>
        b.map (fun r => mapRowToSqlColumns r parsed.headers
          (inferTableSchema parsed.headers parsed.rows))) := by
  have hcols := inferTableSchema_cols_ne_nil parsed.headers parsed.rows hheaders
  have hcond : (decide (ifE = "fail") && o.tableExists) = false := by
    by_cases hif : ifE = "fail"
    · cases ht : o.tableExists
      · simp [ht]
      · exact absurd ⟨hif, ht⟩ hnf
    · simp [hif]
  have hmem : ∀ b ∈ chunkRows parsed.rows, b ≠ [] :=
    fun b hb => (chunkRowsFuel_mem _ _ b hb).1
  unfold importDataToTable
  simp only [hcond, Bool.false_eq_true, if_false]
  rw [runBatchesNew_all_ok o _ parsed.headers _ hok hcols (chunkRows parsed.rows) 0 hmem]
  simp only [if_true]
  rw [insertedBatches_append, insertedBatches_append, insertedBatches_append,
    insertedBatches_conflictOps, insertedBatches_map_insert]
  simp [insertedBatches]

/-- On the `upload_old` path, an all-successful store receives exactly one
insert per 500-row batch, in order. -/
theorem processFile_one_insert_per_batch (o : Oracle)
    (hok : ∀ i a, o.insertResult i a = .ok)
    (cfg : UploadConfig) (parsed : ParsedData)
    (hpr : cfg.parseResult = some parsed)
    (hext : isSupportedExt (resolveExt cfg.extRaw cfg.overrideType) = true)
    (hheaders : parsed.headers ≠ [])
    (hnf : ¬(cfg.ifExists = "fail" ∧ o.tableExists = true)) :
    insertedBatches (processFile o cfg).1 =
      (chunkRows parsed.rows).map (fun b =>
        b.map (fun r => mapRowToSqlColumns r parsed.headers
          (inferTableSchema parsed.headers parsed.rows))) := by
  have hcols := inferTableSchema_cols_ne_nil parsed.headers parsed.rows hheaders
  have hcond : (decide (cfg.ifExists = "fail") && o.tableExists) = false := by
    by_cases hif : cfg.ifExists = "fail"
    · cases ht : o.tableExists
      · simp [ht]
      · exact absurd ⟨hif, ht⟩ hnf
    · simp [hif]
  have hmem : ∀ b ∈ chunkRows parsed.rows, b ≠ [] :=
    fun b hb => (chunkRowsFuel_mem _ _ b hb).1
  cases hrows : parsed.rows with
  | nil =>
    unfold processFile
    simp only [hext, Bool.not_true, Bool.false_eq_true, if_false, hpr, hrows,
      List.isEmpty_nil, if_true]
    simp [insertedBatches, chunkRows, chunkRowsFuel]
  | cons r rs =>
    unfold processFile
    simp only [hext, Bool.not_true, Bool.false_eq_true, if_false, hpr, hrows,
      List.isEmpty_cons, hcond]
    rw [← hrows]
    rw [runBatchesOld_all_ok o _ parsed.headers _ hok hcols (chunkRows parsed.rows) 0 hmem]
    simp only [if_true]
    rw [insertedBatches_append, insertedBatches_append, insertedBatches_append,
      insertedBatches_append, insertedBatches_conflictOps, insertedBatches_map_insert]
    simp [insertedBatches]

/-! ## C9 — 500-row batching -/

/-- C9: for every row sequence, both import paths partition the rows into
consecutive batches — each non-empty, of at most 500 rows, every batch
except the last of exactly 500, concatenating back to the original rows in
order — and, against a store that accepts every statement, submit exactly
one multi-row insert per batch, in batch order; a 1200-row source yields
exactly the batch sizes 500, 500, 200. -/
theorem batching_partitions_and_inserts (o : Oracle)
    (hok : ∀ i a, o.insertResult i a = .ok)
    (fileName explicitName : String) (parsed : ParsedData)
    (cfg : UploadConfig)
    (hheaders : parsed.headers ≠ [])
    (hpr : cfg.parseResult = some parsed)
    (hext : isSupportedExt (resolveExt cfg.extRaw cfg.overrideType) = true)
    (hnf1 : ¬(cfg.ifExists = "fail" ∧ o.tableExists = true))
    (ifE : String)
    (hnf2 : ¬(ifE = "fail" ∧ o.tableExists = true)) :
    (chunkRows parsed.rows).flatten = parsed.rows ∧
      (∀ b ∈ chunkRows parsed.rows, b ≠ [] ∧ b.length ≤ 500) ∧
      (∀ i, i + 1 < (chunkRows parsed.rows).length →
        ((chunkRows parsed.rows).map List.length)[i]? = some 500) ∧
      (parsed.rows.length = 1200 →
        (chunkRows parsed.rows).map List.length = [500, 500, 200]) ∧
      insertedBatches (importDataToTable o fileName parsed ifE explicitName).1 =
        (chunkRows parsed.rows).map (fun b =>
          b.map (fun r => mapRowToSqlColumns r parsed.headers
            (inferTableSchema parsed.headers parsed.rows))) ∧
      insertedBatches (processFile o cfg).1 =
        (chunkRows parsed.rows).map (fun b =>
          b.map (fun r => mapRowToSqlColumns r parsed.headers
            (inferTableSchema parsed.headers parsed.rows))) := by
  refine ⟨?_, ?_, ?_, ?_, ?_, ?_⟩
  · exact chunkRowsFuel_flatten parsed.rows.length parsed.rows (le_refl _)
  · exact chunkRowsFuel_mem parsed.rows.length parsed.rows
  · intro i h
    unfold chunkRows at h ⊢
    rw [chunkRowsFuel_sizes]
    apply chunkSizesFuel_prefix_500
    rw [← chunkRowsFuel_sizes, List.length_map]
    exact h
  · intro hlen
    unfold chunkRows
    rw [chunkRowsFuel_sizes, hlen]
    decide
  · exact importDataToTable_one_insert_per_batch o hok fileName explicitName ifE parsed
      hheaders hnf2
  · exact processFile_one_insert_per_batch o hok cfg parsed hpr hext hheaders hnf1

/-- A 1200-row single-column source (all rows empty objects). -/
def source1200 : ParsedData :=
  ⟨["a"], List.replicate 1200 ([] : Row)⟩

/-- Witness for C9: the 1200-row source under `append` against an
all-successful store, on both import paths. -/
theorem batching_partitions_and_inserts_witness :
    (∀ i a, oracleAllOk.insertResult i a = .ok) ∧
      source1200.headers ≠ [] ∧
      (uploadCfg source1200 "append").parseResult = some source1200 ∧
      isSupportedExt (resolveExt (uploadCfg source1200 "append").extRaw
        (uploadCfg source1200 "append").overrideType) = true ∧
      ¬((uploadCfg source1200 "append").ifExists = "fail" ∧
        oracleAllOk.tableExists = true) ∧
      ¬(("append" : String) = "fail" ∧ oracleAllOk.tableExists = true) ∧
      ((chunkRows source1200.rows).flatten = source1200.rows ∧
        (∀ b ∈ chunkRows source1200.rows, b ≠ [] ∧ b.length ≤ 500) ∧
        (∀ i, i + 1 < (chunkRows source1200.rows).length →
          ((chunkRows source1200.rows).map List.length)[i]? = some 500) ∧
        (source1200.rows.length = 1200 →
          (chunkRows source1200.rows).map List.length = [500, 500, 200]) ∧
        insertedBatches (importDataToTable oracleAllOk "data.csv" source1200 "append" "").1 =
          (chunkRows source1200.rows).map (fun b =>
            b.map (fun r => mapRowToSqlColumns r source1200.headers
              (inferTableSchema source1200.headers source1200.rows))) ∧
        insertedBatches (processFile oracleAllOk (uploadCfg source1200 "append")).1 =
          (chunkRows source1200.rows).map (fun b =>
            b.map (fun r => mapRowToSqlColumns r source1200.headers
              (inferTableSchema source1200.headers source1200.rows)))) :=
  ⟨fun _ _ => rfl, by decide, rfl, by decide, by decide, by decide,
    batching_partitions_and_inserts oracleAllOk (fun _ _ => rfl) "data.csv" ""
      source1200 (uploadCfg source1200 "append") (by decide) rfl (by decide)
      (by decide) "append" (by decide)⟩
